import Mathlib

/-!
Verification of the robodaq recorder core (src/recorder/src), shallowly
embedded in Lean: the single-producer/single-consumer ring buffer
(`spsc_ring_buffer.hpp`), the synchronizer matching loop
(`Recorder::sync_thread_func` in `recorder.cpp`), and the performance
monitor (`performance_monitor.cpp`).  Machine integers (`size_t`,
`uint64_t`) are modelled as `Nat` with explicit `% 2^64` where the C++
code can wrap; `double` is modelled as `ℚ` (every arithmetic step of the
concrete runs checked below is exact in binary64, so the rational model
agrees with the C++ value there).
-/

namespace Robodaq

/-- Shallow embedding of `SPSCRingBuffer<T>` from `spsc_ring_buffer.hpp`.
The C++ object allocates `capacity + 1` storage slots
(`std::make_unique<T[]>(capacity + 1)`); `buf` models that array as a
total function (slots `0 .. cap` are the ones the code touches), and
`write_index` / `read_index` model the two atomic indices.  The
sequential (single-threaded) semantics is used, which is what the
single-producer/single-consumer discipline guarantees per operation. -/
structure SPSCRingBuffer (T : Type) where
  cap : Nat
  drop_oldest : Bool
  buf : Nat → T
  write_index : Nat
  read_index : Nat

namespace SPSCRingBuffer

/-- The freshly constructed buffer: both indices zero, value-initialized
storage (`std::make_unique<T[]>` value-initializes the slots). -/
def init (T : Type) [Inhabited T] (capacity : Nat) (drop_oldest : Bool) :
    SPSCRingBuffer T :=
  ⟨capacity, drop_oldest, fun _ => default, 0, 0⟩

/-- `SPSCRingBuffer<T>::push` (lines 57-74): compute
`next_write = (current_write + 1) % (capacity_ + 1)`; if
`next_write == current_read && !drop_oldest_` return `false` without
touching the state; otherwise store the item into slot `current_write`
and publish `next_write`. -/
def push {T : Type} (s : SPSCRingBuffer T) (item : T) : Bool × SPSCRingBuffer T :=
  if (s.write_index + 1) % (s.cap + 1) = s.read_index ∧ s.drop_oldest = false then
    (false, s)
  else
    (true,
      { s with
        buf := fun j => if j = s.write_index then item else s.buf j,
        write_index := (s.write_index + 1) % (s.cap + 1) })

/-- `SPSCRingBuffer<T>::pop` (lines 76-93): if `write == read` the buffer
is empty and pop fails; otherwise read slot `current_read` and advance
the read index modulo `capacity_ + 1`. -/
def pop {T : Type} (s : SPSCRingBuffer T) : Option (T × SPSCRingBuffer T) :=
  if s.write_index = s.read_index then
    none
  else
    some (s.buf s.read_index,
      { s with read_index := (s.read_index + 1) % (s.cap + 1) })

/-- `SPSCRingBuffer<T>::size` (lines 95-100), exactly as written:
`(w >= r) ? (w - r) : (capacity_ + w - r)`.  Note the wrap branch uses
`capacity_`, not `capacity_ + 1`. -/
def size {T : Type} (s : SPSCRingBuffer T) : Nat :=
  if s.read_index ≤ s.write_index then
    s.write_index - s.read_index
  else
    s.cap + s.write_index - s.read_index

/-- `SPSCRingBuffer<T>::capacity` (lines 102-105). -/
def capacity {T : Type} (s : SPSCRingBuffer T) : Nat :=
  s.cap

/-- `SPSCRingBuffer<T>::is_empty` (lines 107-113): read index equals
write index. -/
def is_empty {T : Type} (s : SPSCRingBuffer T) : Bool :=
  s.read_index == s.write_index

/-- `SPSCRingBuffer<T>::is_full` (lines 115-120), exactly as written:
`(current_write + 1) % capacity_ == read_index`.  Note the modulus is
`capacity_`, not the `capacity_ + 1` used by `push`. -/
def is_full {T : Type} (s : SPSCRingBuffer T) : Bool :=
  (s.write_index + 1) % s.cap == s.read_index

/-- Ghost observer (not in the source): the true number of
pushed-but-not-popped items held by a buffer whose indices are in range,
under the `cap + 1`-slot scheme of `push`/`pop`. -/
def count {T : Type} (s : SPSCRingBuffer T) : Nat :=
  if s.read_index ≤ s.write_index then
    s.write_index - s.read_index
  else
    s.cap + 1 + s.write_index - s.read_index

/-- Sequentially push a whole list, recording whether every push
succeeded (conjunction of the individual return values). -/
def pushAll {T : Type} (s : SPSCRingBuffer T) : List T → Bool × SPSCRingBuffer T
  | [] => (true, s)
  | x :: xs =>
    ((push s x).1 && (pushAll (push s x).2 xs).1, (pushAll (push s x).2 xs).2)

/-- Sequentially pop up to `n` items, returning them in pop order
together with the final state; stops early if a pop fails. -/
def popN {T : Type} (s : SPSCRingBuffer T) : Nat → List T × SPSCRingBuffer T
  | 0 => ([], s)
  | n + 1 =>
    match pop s with
    | none => ([], s)
    | some (x, s1) => (x :: (popN s1 n).1, (popN s1 n).2)

/-- The state reached by `pop`, discarding the popped value (identity
when the buffer is empty). -/
def pop1 {T : Type} (s : SPSCRingBuffer T) : SPSCRingBuffer T :=
  match pop s with
  | none => s
  | some (_, s1) => s1

/-- Branch lemma: `push` on a full buffer under the reject policy
returns failure and the unchanged state. -/
theorem push_full {T : Type} (s : SPSCRingBuffer T) (x : T)
    (h : (s.write_index + 1) % (s.cap + 1) = s.read_index)
    (hd : s.drop_oldest = false) :
    push s x = (false, s) := by
  unfold push
  rw [if_pos ⟨h, hd⟩]

/-- Branch lemma: the successful `push` path writes the item into slot
`write_index` and advances the write index modulo `cap + 1`. -/
theorem push_succ {T : Type} (s : SPSCRingBuffer T) (x : T)
    (h : ¬((s.write_index + 1) % (s.cap + 1) = s.read_index ∧ s.drop_oldest = false)) :
    push s x =
      (true,
        { s with
          buf := fun j => if j = s.write_index then x else s.buf j,
          write_index := (s.write_index + 1) % (s.cap + 1) }) := by
  unfold push
  rw [if_neg h]

/-- Branch lemma: `pop` on an empty buffer fails. -/
theorem pop_empty {T : Type} (s : SPSCRingBuffer T)
    (h : s.write_index = s.read_index) :
    pop s = none := by
  unfold pop
  rw [if_pos h]

/-- Branch lemma: `pop` on a non-empty buffer returns the slot at the
read index and advances the read index modulo `cap + 1`. -/
theorem pop_some {T : Type} (s : SPSCRingBuffer T)
    (h : ¬s.write_index = s.read_index) :
    pop s = some (s.buf s.read_index,
      { s with read_index := (s.read_index + 1) % (s.cap + 1) }) := by
  unfold pop
  rw [if_neg h]

/-- States reachable from a freshly constructed buffer by any sequence
of `push` and `pop` calls (the single-threaded reachable-state space). -/
inductive Reachable (T : Type) [Inhabited T] (capacity : Nat) (drop_oldest : Bool) :
    SPSCRingBuffer T → Prop
  | init : Reachable T capacity drop_oldest (init T capacity drop_oldest)
  | push (s : SPSCRingBuffer T) (x : T) :
      Reachable T capacity drop_oldest s →
      Reachable T capacity drop_oldest (SPSCRingBuffer.push s x).2
  | pop (s : SPSCRingBuffer T) :
      Reachable T capacity drop_oldest s →
      Reachable T capacity drop_oldest (pop1 s)

/-- Every reachable state keeps the construction parameters and keeps
both indices inside the `capacity + 1` storage slots. -/
theorem reachable_inv {T : Type} [Inhabited T] {capacity : Nat} {drop : Bool}
    {s : SPSCRingBuffer T} (h : Reachable T capacity drop s) :
    s.cap = capacity ∧ s.drop_oldest = drop ∧
      s.write_index ≤ capacity ∧ s.read_index ≤ capacity := by
  induction h with
  | init => exact ⟨rfl, rfl, Nat.zero_le _, Nat.zero_le _⟩
  | push s x _ ih =>
    obtain ⟨hc, hd, hw, hr⟩ := ih
    have hm : (s.write_index + 1) % (s.cap + 1) < s.cap + 1 :=
      Nat.mod_lt _ (Nat.succ_pos _)
    by_cases hcond :
        (s.write_index + 1) % (s.cap + 1) = s.read_index ∧ s.drop_oldest = false
    · rw [push_full s x hcond.1 hcond.2]
      exact ⟨hc, hd, hw, hr⟩
    · rw [push_succ s x hcond]
      refine ⟨hc, hd, ?_, hr⟩
      dsimp only
      rw [hc] at hm ⊢
      omega
  | pop s _ ih =>
    obtain ⟨hc, hd, hw, hr⟩ := ih
    have hm : (s.read_index + 1) % (s.cap + 1) < s.cap + 1 :=
      Nat.mod_lt _ (Nat.succ_pos _)
    by_cases he : s.write_index = s.read_index
    · have h1 : pop1 s = s := by
        unfold pop1
        rw [pop_empty s he]
      rw [h1]
      exact ⟨hc, hd, hw, hr⟩
    · have h1 : pop1 s = { s with read_index := (s.read_index + 1) % (s.cap + 1) } := by
        unfold pop1
        rw [pop_some s he]
      rw [h1]
      refine ⟨hc, hd, hw, ?_⟩
      dsimp only
      rw [hc] at hm ⊢
      omega

/-- The state of a capacity-`N` reject-policy buffer that has absorbed
the pushes of `0, 1, ..., k-1` and whose read index stands at `r`:
write index `k`, slots `0 .. k-1` holding their own index. -/
def rangeState (N k r : Nat) : SPSCRingBuffer Nat :=
  ⟨N, false, fun j => if j < k then j else 0, k, r⟩

theorem init_eq_rangeState (N : Nat) : init Nat N false = rangeState N 0 0 := by
  unfold init rangeState
  congr 1

theorem pushAll_range_aux (N : Nat) :
    ∀ k i : Nat, i + k ≤ N →
      pushAll (rangeState N i 0) (List.range' i k) = (true, rangeState N (i + k) 0) := by
  intro k
  induction k with
  | zero =>
    intro i _
    simp [pushAll, List.range']
  | succ k ih =>
    intro i hik
    have hi1 : i + 1 < N + 1 := by omega
    have hmod : (i + 1) % (N + 1) = i + 1 := Nat.mod_eq_of_lt hi1
    have hcond : ¬(((rangeState N i 0).write_index + 1) % ((rangeState N i 0).cap + 1) =
        (rangeState N i 0).read_index ∧ (rangeState N i 0).drop_oldest = false) := by
      intro hfalse
      have h0 : (i + 1) % (N + 1) = 0 := hfalse.1
      omega
    have hbuf : (fun j : Nat => if j = i then i else if j < i then j else 0)
        = fun j : Nat => if j < i + 1 then j else 0 := by
      funext j
      rcases Nat.lt_trichotomy j i with hj | hj | hj
      · have h1 : j ≠ i := Nat.ne_of_lt hj
        have h2 : j < i + 1 := Nat.lt_succ_of_lt hj
        simp [h1, h2, hj]
      · subst hj
        simp
      · have h1 : j ≠ i := by omega
        have h2 : ¬j < i := by omega
        have h3 : ¬j < i + 1 := by omega
        simp [h1, h2, h3]
    have hstep : push (rangeState N i 0) i = (true, rangeState N (i + 1) 0) := by
      rw [push_succ _ _ hcond]
      unfold rangeState
      dsimp only
      rw [hmod, hbuf]
    rw [List.range'_succ]
    simp only [pushAll, hstep]
    have hrec := ih (i + 1) (by omega)
    have harith : i + 1 + k = i + (k + 1) := by omega
    rw [harith] at hrec
    simp [hrec]

theorem popN_range_aux (N k : Nat) (hkN : k ≤ N) :
    ∀ n r : Nat, r + n = k →
      popN (rangeState N k r) n = (List.range' r n, rangeState N k k) := by
  intro n
  induction n with
  | zero =>
    intro r hr
    have : r = k := by omega
    subst this
    simp [popN, List.range']
  | succ n ih =>
    intro r hr
    have hrk : r < k := by omega
    have hne : ¬(rangeState N k r).write_index = (rangeState N k r).read_index := by
      unfold rangeState
      dsimp only
      omega
    have hbuf : (rangeState N k r).buf (rangeState N k r).read_index = r := by
      unfold rangeState
      dsimp only
      rw [if_pos hrk]
    have hmod : (r + 1) % (N + 1) = r + 1 := Nat.mod_eq_of_lt (by omega)
    have hstep : pop (rangeState N k r) = some (r, rangeState N k (r + 1)) := by
      rw [pop_some _ hne, hbuf]
      unfold rangeState
      dsimp only
      rw [hmod]
    have hrec := ih (r + 1) (by omega)
    simp only [popN, hstep]
    rw [hrec, List.range'_succ]

/-- Claim C3 counterexample: with capacity 1 and `drop_oldest = true`,
pushing 10 fills the queue (one item held), a second push of 20 reports
success, but afterwards the queue is observed as empty — `is_empty()`
answers true and `pop` fails — refuting the claim that a successful push
never leaves the queue observed as empty with its items retrievable. -/
theorem C3_overwrite_invariant_counterexample :
    count ((push (init Nat 1 true) 10).2) = 1 ∧
      (push ((push (init Nat 1 true) 10).2) 20).1 = true ∧
      is_empty ((push ((push (init Nat 1 true) 10).2) 20).2) = true ∧
      ¬is_empty ((push ((push (init Nat 1 true) 10).2) 20).2) = false ∧
      pop ((push ((push (init Nat 1 true) 10).2) 20).2) = none :=
  ⟨rfl, rfl, rfl, by decide, rfl⟩

/-- Claim C3, amended: with `overwrite_oldest` (`drop_oldest`) true, a
push onto a full queue (N buffered items, in any reachable such state)
reports success but does not preserve the empty/full distinguishing
invariant: exactly as Design Notes record for the source, it advances
the write index onto the read index without advancing the read index,
so the queue is then observed as empty (read index equal to write
index, `is_empty()` true) and none of the N buffered items can be
retrieved by `pop`. -/
theorem C3_overwrite_full_push_appears_empty {T : Type} [Inhabited T] (N : Nat)
    (s : SPSCRingBuffer T) (x : T)
    (hreach : Reachable T N true s) (hfull : count s = N) :
    (push s x).1 = true ∧
      (push s x).2.read_index = (push s x).2.write_index ∧
      is_empty (push s x).2 = true ∧
      pop (push s x).2 = none := by
  obtain ⟨hc, hd, hw, hr⟩ := reachable_inv hreach
  have hidx : (s.write_index + 1) % (s.cap + 1) = s.read_index := by
    unfold count at hfull
    by_cases hle : s.read_index ≤ s.write_index
    · rw [if_pos hle] at hfull
      have hvals : s.write_index = N ∧ s.read_index = 0 := by omega
      rw [hc, hvals.1, hvals.2]
      simp
    · rw [if_neg hle] at hfull
      rw [hc] at hfull
      have hval : s.read_index = s.write_index + 1 := by omega
      rw [hc, hval]
      exact Nat.mod_eq_of_lt (by omega)
  have hcond :
      ¬((s.write_index + 1) % (s.cap + 1) = s.read_index ∧ s.drop_oldest = false) := by
    intro hfalse
    rw [hd] at hfalse
    simp at hfalse
  rw [push_succ s x hcond]
  refine ⟨rfl, ?_, ?_, ?_⟩
  · dsimp only
    exact hidx.symm
  · unfold is_empty
    dsimp only
    rw [hidx]
    simp
  · apply pop_empty
    dsimp only
    exact hidx

/-- Claim C3 witness: the amended statement at capacity 1 — the
reachable state after pushing one item is full, and the overwriting push
of a second item succeeds yet leaves the queue unable to pop anything. -/
theorem C3_overwrite_full_push_appears_empty_witness :
    count ((push (init Nat 1 true) 10).2) = 1 ∧
      (push ((push (init Nat 1 true) 10).2) 20).1 = true ∧
      pop ((push ((push (init Nat 1 true) 10).2) 20).2) = none :=
  ⟨rfl,
    (C3_overwrite_full_push_appears_empty 1 ((push (init Nat 1 true) 10).2) 20
      (Reachable.push (init Nat 1 true) 10 Reachable.init) rfl).1,
    (C3_overwrite_full_push_appears_empty 1 ((push (init Nat 1 true) 10).2) 20
      (Reachable.push (init Nat 1 true) 10 Reachable.init) rfl).2.2.2⟩

/-- Claim C4 counterexample: with capacity 2, after two pushes the
buffer holds 2 = N items yet `is_full()` answers false; after two
pushes, two pops and two more pushes it holds 2 items — both still
retrievable by `pop` — yet `size()` answers 1, not 2, and `is_full()`
answers false.  This refutes the claim that `size()` is exact and that
`is_full()` answers true exactly when N items are held (`is_empty` is
correct at these states). -/
theorem C4_faithful_snapshots_counterexample :
    count ((pushAll (init Nat 2 false) [10, 20]).2) = 2 ∧
      size ((pushAll (init Nat 2 false) [10, 20]).2) = 2 ∧
      is_full ((pushAll (init Nat 2 false) [10, 20]).2) = false ∧
      ¬is_full ((pushAll (init Nat 2 false) [10, 20]).2) = true ∧
      count ((pushAll (popN (pushAll (init Nat 2 false) [10, 20]).2 2).2 [30, 40]).2) = 2 ∧
      (popN ((pushAll (popN (pushAll (init Nat 2 false) [10, 20]).2 2).2 [30, 40]).2) 2).1
        = [30, 40] ∧
      size ((pushAll (popN (pushAll (init Nat 2 false) [10, 20]).2 2).2 [30, 40]).2) = 1 ∧
      ¬size ((pushAll (popN (pushAll (init Nat 2 false) [10, 20]).2 2).2 [30, 40]).2) = 2 ∧
      is_full ((pushAll (popN (pushAll (init Nat 2 false) [10, 20]).2 2).2 [30, 40]).2)
        = false ∧
      is_empty ((pushAll (popN (pushAll (init Nat 2 false) [10, 20]).2 2).2 [30, 40]).2)
        = false :=
  ⟨rfl, rfl, rfl, by decide, rfl, rfl, rfl, by decide, rfl, rfl⟩

/-- Claim C4, amended: in single-threaded use, over every reachable
state, `is_empty()` is faithful — true exactly when 0 items are held;
`size()` equals the item count exactly while the indices are unwrapped
(read index at most write index), and in wrapped states (write index
below read index) it returns one less than the item count; and
`is_full()`, which compares the write successor modulo N instead of
N+1, fails to recognize even the canonical full state — read index 0
holding N ≥ 2 items — answering false there. -/
theorem C4_snapshot_accessors_amended {T : Type} [Inhabited T] (N : Nat) (drop : Bool)
    (s : SPSCRingBuffer T) (hreach : Reachable T N drop s) :
    (is_empty s = true ↔ count s = 0) ∧
      (s.read_index ≤ s.write_index → size s = count s) ∧
      (s.write_index < s.read_index → size s + 1 = count s) ∧
      (2 ≤ N → s.read_index = 0 → count s = N → is_full s = false) := by
  obtain ⟨hc, hd, hw, hr⟩ := reachable_inv hreach
  refine ⟨?_, ?_, ?_, ?_⟩
  · unfold is_empty count
    simp only [beq_iff_eq]
    by_cases hle : s.read_index ≤ s.write_index
    · rw [if_pos hle]
      omega
    · rw [if_neg hle]
      omega
  · intro h
    unfold size count
    simp only [if_pos h]
  · intro h
    have h2 : ¬s.read_index ≤ s.write_index := by omega
    unfold size count
    simp only [if_neg h2]
    omega
  · intro hN2 hr0 hcount
    have hw0 : s.write_index = N := by
      unfold count at hcount
      rw [if_pos (by omega : s.read_index ≤ s.write_index)] at hcount
      omega
    unfold is_full
    rw [hc, hw0, hr0]
    have hmod : (N + 1) % N = 1 := by
      rw [Nat.add_comm, Nat.add_mod_right]
      exact Nat.mod_eq_of_lt (by omega)
    rw [hmod]
    rfl

/-- Claim C4 witness: the amended statement at the reachable wrapped
state of a capacity-2 buffer (two pushes, two pops, two pushes): the
indices are wrapped and `size()` underreports the item count by exactly
one. -/
theorem C4_snapshot_accessors_amended_witness :
    (push (push (pop1 (pop1 (push (push (init Nat 2 false) 10).2 20).2)) 30).2
        40).2.write_index
      < (push (push (pop1 (pop1 (push (push (init Nat 2 false) 10).2 20).2)) 30).2
        40).2.read_index ∧
      size (push (push (pop1 (pop1 (push (push (init Nat 2 false) 10).2 20).2)) 30).2 40).2
          + 1
        = count (push (push (pop1 (pop1 (push (push (init Nat 2 false) 10).2 20).2)) 30).2
          40).2 :=
  ⟨by decide,
    (C4_snapshot_accessors_amended 2 false _
      (Reachable.push _ 40 (Reachable.push _ 30 (Reachable.pop _ (Reachable.pop _
        (Reachable.push _ 20 (Reachable.push _ 10 Reachable.init))))))).2.2.1
      (by decide)⟩

/-- Claim C5: with `drop_oldest = false` (reject policy), in every
reachable state holding exactly N = capacity items, `push` returns
failure and leaves the whole state unchanged (indices and payloads), so
any subsequent sequence of pops drains the previously accepted items
exactly as it would have without the failed push. -/
theorem C5_reject_full_push_unchanged {T : Type} [Inhabited T] (N : Nat)
    (s : SPSCRingBuffer T) (x : T)
    (hreach : Reachable T N false s) (hfull : count s = N) :
    push s x = (false, s) ∧ ∀ m, popN (push s x).2 m = popN s m := by
  obtain ⟨hc, hd, hw, hr⟩ := reachable_inv hreach
  have hidx : (s.write_index + 1) % (s.cap + 1) = s.read_index := by
    unfold count at hfull
    by_cases hle : s.read_index ≤ s.write_index
    · rw [if_pos hle] at hfull
      have hvals : s.write_index = N ∧ s.read_index = 0 := by omega
      rw [hc, hvals.1, hvals.2]
      simp
    · rw [if_neg hle] at hfull
      rw [hc] at hfull
      have hval : s.read_index = s.write_index + 1 := by omega
      rw [hc, hval]
      exact Nat.mod_eq_of_lt (by omega)
  have h1 := push_full s x hidx hd
  exact ⟨h1, fun m => by rw [h1]⟩

/-- Claim C5 witness: at capacity 1, the reachable state after pushing
one item holds exactly 1 item, and a further push fails leaving the
state unchanged. -/
theorem C5_reject_full_push_unchanged_witness :
    count ((push (init Nat 1 false) 42).2) = 1 ∧
      push ((push (init Nat 1 false) 42).2) 7 = (false, (push (init Nat 1 false) 42).2) :=
  ⟨rfl,
    (C5_reject_full_push_unchanged 1 ((push (init Nat 1 false) 42).2) 7
      (Reachable.push (init Nat 1 false) 42 (Reachable.init)) rfl).1⟩

/-- Claim C6: with capacity N and reject policy, for every k with
0 < k ≤ N, pushing 0, 1, ..., k-1 from the fresh buffer succeeds at
every step, then popping k times returns exactly 0, 1, ..., k-1 in push
order (no duplication or loss), and one further pop fails. -/
theorem C6_fifo_round_trip (N k : Nat) (hk : 0 < k) (hkN : k ≤ N) :
    (pushAll (init Nat N false) (List.range k)).1 = true ∧
      (popN (pushAll (init Nat N false) (List.range k)).2 k).1 = List.range k ∧
      pop (popN (pushAll (init Nat N false) (List.range k)).2 k).2 = none := by
  have h1 : pushAll (init Nat N false) (List.range k) = (true, rangeState N k 0) := by
    rw [init_eq_rangeState, List.range_eq_range']
    have := pushAll_range_aux N k 0 (by omega)
    simpa using this
  have h2 : popN (rangeState N k 0) k = (List.range' 0 k, rangeState N k k) :=
    popN_range_aux N k hkN k 0 (by omega)
  refine ⟨?_, ?_, ?_⟩
  · rw [h1]
  · rw [h1]
    dsimp only
    rw [h2]
    exact (List.range_eq_range' k).symm
  · rw [h1]
    dsimp only
    rw [h2]
    exact pop_empty _ rfl

/-- Claim C6 witness: the round trip at capacity 3 with k = 2. -/
theorem C6_fifo_round_trip_witness :
    (pushAll (init Nat 3 false) (List.range 2)).1 = true ∧
      (popN (pushAll (init Nat 3 false) (List.range 2)).2 2).1 = List.range 2 ∧
      pop (popN (pushAll (init Nat 3 false) (List.range 2)).2 2).2 = none :=
  C6_fifo_round_trip 3 2 (by decide) (by decide)

end SPSCRingBuffer

/-- The `CameraFrame` fields the synchronizer reads
(`camera_capture_pipeline.hpp` lines 20-30): per-device sequence number
and capture timestamp in microseconds (`uint64_t`). -/
structure CameraFrame where
  sequence_number : Nat
  timestamp_us : Nat
deriving DecidableEq

/-- The absolute timestamp delta of `Recorder::sync_thread_func`
(`recorder.cpp` line 81):
`std::abs(int64(right.timestamp_us) - int64(front.timestamp_us))`. -/
def time_diff (right_frame front_frame : CameraFrame) : Nat :=
  ((right_frame.timestamp_us : Int) - (front_frame.timestamp_us : Int)).natAbs

/-- Outcome of one polling iteration of `Recorder::sync_thread_func`
for one trigger (front) frame: a matched pair with its delta, or a miss. -/
inductive SyncResult where
  | matched (front right : CameraFrame) (delta : Nat)
  | missed (front : CameraFrame)
deriving DecidableEq

/-- The inner `while (right_buffer_->pop(right_frame))` loop of
`Recorder::sync_thread_func` (`recorder.cpp` lines 76-95), acting on the
FIFO contents of the secondary (right) queue: pop frames until one is
within tolerance (match found, stop), or one overshoots
`front.timestamp_us + tolerance` (window missed, stop; the overshooting
frame stays consumed), or the queue runs dry.  Returns the match, if
any, together with the frames still queued. -/
def match_secondary (tol : Nat) (front_frame : CameraFrame) :
    List CameraFrame → Option (CameraFrame × Nat) × List CameraFrame
  | [] => (none, [])
  | r :: rest =>
    if time_diff r front_frame ≤ tol then
      (some (r, time_diff r front_frame), rest)
    else if r.timestamp_us > front_frame.timestamp_us + tol then
      (none, rest)
    else
      match_secondary tol front_frame rest

/-- The sequential run of the polling loop: each trigger (front) frame
is handled by one iteration — pop it, run the matching loop against the
current secondary queue — with the leftover secondary frames carried to
the next iteration.  Returns the per-trigger outcomes and the secondary
frames never consumed. -/
def sync_run (tol : Nat) :
    List CameraFrame → List CameraFrame → List SyncResult × List CameraFrame
  | [], secondary => ([], secondary)
  | f :: fs, secondary =>
    match match_secondary tol f secondary with
    | (some (r, d), rest) =>
      (SyncResult.matched f r d :: (sync_run tol fs rest).1, (sync_run tol fs rest).2)
    | (none, rest) =>
      (SyncResult.missed f :: (sync_run tol fs rest).1, (sync_run tol fs rest).2)

/-- A frame lying beyond the upper edge of the tolerance window is in
particular out of tolerance. -/
theorem time_diff_of_overshoot {tol : Nat} {front a : CameraFrame}
    (h : front.timestamp_us + tol < a.timestamp_us) : tol < time_diff a front := by
  unfold time_diff
  omega

/-- Claim C1: with tolerance 50 µs, trigger frames at timestamps
0, 100, 500 and secondary frames at 10, 90, 600 (each trigger handled by
one polling iteration), the loop matches trigger 0 with secondary 10
(delta 10), matches trigger 100 with secondary 90 (delta 10), and misses
trigger 500; the overshooting secondary frame 600 is popped and
discarded, leaving the secondary queue empty. -/
theorem C1_sync_scenario :
    sync_run 50 [⟨1, 0⟩, ⟨2, 100⟩, ⟨3, 500⟩] [⟨1, 10⟩, ⟨2, 90⟩, ⟨3, 600⟩]
      = ([SyncResult.matched ⟨1, 0⟩ ⟨1, 10⟩ 10,
          SyncResult.matched ⟨2, 100⟩ ⟨2, 90⟩ 10,
          SyncResult.missed ⟨3, 500⟩], []) := by
  decide

/-- Claim C2: the matching loop accepts the first (oldest-queued)
secondary frame whose delta is within tolerance and never keeps
searching for a closer candidate.  Part one: a within-tolerance frame at
the head is accepted immediately.  Part two: whatever the loop accepts
is the first within-tolerance frame — every earlier-queued frame it
consumed was out of tolerance — and the reported delta is that frame's
delta.  Part three: when the queued timestamps are non-decreasing (the
stream invariant), the loop does accept a frame whenever any queued
frame is within tolerance. -/
theorem C2_first_within_tolerance_accepted (tol : Nat) (f : CameraFrame) :
    (∀ (r : CameraFrame) (rest : List CameraFrame),
        time_diff r f ≤ tol →
        match_secondary tol f (r :: rest) = (some (r, time_diff r f), rest)) ∧
      (∀ (sec : List CameraFrame) (r : CameraFrame) (d : Nat) (rest : List CameraFrame),
        match_secondary tol f sec = (some (r, d), rest) →
        d = time_diff r f ∧
          ∃ pre, sec = pre ++ r :: rest ∧ ∀ x ∈ pre, tol < time_diff x f) ∧
      (∀ sec : List CameraFrame,
        List.Pairwise (fun a b => a.timestamp_us ≤ b.timestamp_us) sec →
        (∃ x ∈ sec, time_diff x f ≤ tol) →
        ∃ r rest, match_secondary tol f sec = (some (r, time_diff r f), rest)) := by
  refine ⟨?_, ?_, ?_⟩
  · intro r rest h
    simp only [match_secondary]
    rw [if_pos h]
  · intro sec
    induction sec with
    | nil =>
      intro r d rest h
      simp [match_secondary] at h
    | cons r0 rest0 ih =>
      intro r d rest h
      simp only [match_secondary] at h
      by_cases h1 : time_diff r0 f ≤ tol
      · rw [if_pos h1] at h
        obtain ⟨h2, h3⟩ := Prod.mk.injEq .. ▸ h
        obtain ⟨h4, h5⟩ := Prod.mk.injEq .. ▸ Option.some.inj h2
        subst h4
        subst h5
        subst h3
        exact ⟨rfl, [], rfl, by simp⟩
      · rw [if_neg h1] at h
        by_cases h2 : r0.timestamp_us > f.timestamp_us + tol
        · rw [if_pos h2] at h
          exact absurd (congrArg Prod.fst h) (by simp)
        · rw [if_neg h2] at h
          obtain ⟨hd, pre, hpre, hout⟩ := ih r d rest h
          refine ⟨hd, r0 :: pre, by rw [hpre]; rfl, ?_⟩
          intro x hx
          rcases List.mem_cons.mp hx with hx0 | hx0
          · subst hx0
            omega
          · exact hout x hx0
  · intro sec
    induction sec with
    | nil =>
      intro _ hex
      simp at hex
    | cons r0 rest0 ih =>
      intro hpw hex
      by_cases h1 : time_diff r0 f ≤ tol
      · refine ⟨r0, rest0, ?_⟩
        simp only [match_secondary]
        rw [if_pos h1]
      · obtain ⟨hhead, htail⟩ := List.pairwise_cons.mp hpw
        by_cases h2 : r0.timestamp_us > f.timestamp_us + tol
        · exfalso
          obtain ⟨x, hx, hxt⟩ := hex
          rcases List.mem_cons.mp hx with hx0 | hx0
          · exact h1 (hx0 ▸ hxt)
          · have hts : r0.timestamp_us ≤ x.timestamp_us := hhead x hx0
            have : tol < time_diff x f := time_diff_of_overshoot (by omega)
            omega
        · obtain ⟨x, hx, hxt⟩ := hex
          have hx0 : x ∈ rest0 := by
            rcases List.mem_cons.mp hx with he | he
            · exact absurd (he ▸ hxt) h1
            · exact he
          obtain ⟨r, rest, hres⟩ := ih htail ⟨x, hx0, hxt⟩
          refine ⟨r, rest, ?_⟩
          simp only [match_secondary]
          rw [if_neg h1, if_neg h2]
          exact hres

/-- Claim C2 witness: with tolerance 50 and trigger timestamp 0, a head
secondary frame at timestamp 10 is within tolerance and is accepted
immediately. -/
theorem C2_first_within_tolerance_accepted_witness :
    time_diff ⟨1, 10⟩ ⟨1, 0⟩ ≤ 50 ∧
      match_secondary 50 ⟨1, 0⟩ [⟨1, 10⟩]
        = (some (⟨1, 10⟩, time_diff ⟨1, 10⟩ ⟨1, 0⟩), []) :=
  ⟨by decide,
    (C2_first_within_tolerance_accepted 50 ⟨1, 0⟩).1 ⟨1, 10⟩ [] (by decide)⟩

/-- Per-frame observation record, `FrameData` in
`performance_monitor.hpp` lines 11-15: `uint64_t timestamp_us`,
`uint64_t sequence_number` (modelled as `Nat` values below `2^64`), and
`int latency_us`. -/
structure FrameData where
  timestamp_us : Nat
  sequence_number : Nat
  latency_us : Int
deriving DecidableEq

/-- One record of `events.jsonl` as emitted by
`PerformanceMonitor::log_sequence_gap_event_` (`performance_monitor.cpp`
lines 44-69): timestamp, device name, sequence number, gap size. -/
structure GapEvent where
  timestamp_us : Nat
  device_name : String
  sequence_number : Nat
  gap_size : Nat
deriving DecidableEq

/-- The modulus of `uint64_t` arithmetic. -/
def U64 : Nat := 2 ^ 64

/-- Shallow embedding of the `PerformanceMonitor` state
(`performance_monitor.hpp` lines 17-26): each `unordered_map` becomes a
function from device name, and the open `events.jsonl` stream becomes
the list of appended gap events.  `seq_gap_count_by_device` and
`latency_sample_count_by_device` default to 0, matching
`operator[]` value-initialization. -/
structure PerformanceMonitor where
  last_seq_num_by_device : String → Option Nat
  mean_latency_by_device : String → Option ℚ
  latency_sample_count_by_device : String → Nat
  seq_gap_count_by_device : String → Nat
  num_frames : Nat
  events : List GapEvent

/-- The monitor right after construction and `initialize`: empty maps,
`num_frames_ = 0`, freshly truncated events file. -/
def pmInit : PerformanceMonitor :=
  ⟨fun _ => none, fun _ => none, fun _ => 0, fun _ => 0, 0, []⟩

/-- Point update of a device-keyed map. -/
def setKey {α : Type} (f : String → α) (k : String) (v : α) : String → α :=
  fun x => if x = k then v else f x

/-- `PerformanceMonitor::update_latency_average_`
(`performance_monitor.cpp` lines 71-82): first sample stores the sample
as the mean with count 1; otherwise the count is pre-incremented and the
mean updated by `old_avg + (latency - old_avg) / count`.  The C++
`double` state is modelled as `ℚ`; every arithmetic step exercised by
the concrete runs below is exact in binary64. -/
def update_latency_average (m : PerformanceMonitor) (device_name : String)
    (latency_us : Int) : PerformanceMonitor :=
  match m.mean_latency_by_device device_name with
  | none =>
    { m with
      mean_latency_by_device :=
        setKey m.mean_latency_by_device device_name (some (latency_us : ℚ)),
      latency_sample_count_by_device :=
        setKey m.latency_sample_count_by_device device_name 1 }
  | some old_avg =>
    { m with
      latency_sample_count_by_device :=
        setKey m.latency_sample_count_by_device device_name
          (m.latency_sample_count_by_device device_name + 1),
      mean_latency_by_device :=
        setKey m.mean_latency_by_device device_name
          (some (old_avg + ((latency_us : ℚ) - old_avg)
            / ((m.latency_sample_count_by_device device_name + 1 : Nat) : ℚ))) }

/-- The sequence-gap block of `PerformanceMonitor::tick`
(`performance_monitor.cpp` lines 29-37): if a previous sequence number
is on record, compute `gap = current - last` in `uint64_t` arithmetic —
for operands below `2^64` that value is `(current + 2^64 - last) % 2^64`
— and if `gap > 1` append a gap event of size `gap - 1` and increment
the device's gap count. -/
def detect_gap (m : PerformanceMonitor) (device_name : String) (frame_data : FrameData) :
    PerformanceMonitor :=
  match m.last_seq_num_by_device device_name with
  | none => m
  | some last_seq_num =>
    if 1 < (frame_data.sequence_number + U64 - last_seq_num) % U64 then
      { m with
        events := m.events ++
          [⟨frame_data.timestamp_us, device_name, frame_data.sequence_number,
            (frame_data.sequence_number + U64 - last_seq_num) % U64 - 1⟩],
        seq_gap_count_by_device :=
          setKey m.seq_gap_count_by_device device_name
            (m.seq_gap_count_by_device device_name + 1) }
    else m

/-- The trailing statement of the per-device loop body of `tick`
(line 40): record the current sequence number as the last one seen. -/
def set_last_seq (m : PerformanceMonitor) (device_name : String) (seq : Nat) :
    PerformanceMonitor :=
  { m with
    last_seq_num_by_device :=
      setKey m.last_seq_num_by_device device_name (some seq) }

/-- One iteration of the per-device loop of `PerformanceMonitor::tick`
(lines 22-41): latency update, then gap detection, then the last-seen
sequence number update. -/
def tick_device (m : PerformanceMonitor) (device_name : String) (frame_data : FrameData) :
    PerformanceMonitor :=
  set_last_seq
    (detect_gap (update_latency_average m device_name frame_data.latency_us)
      device_name frame_data)
    device_name frame_data.sequence_number

/-- `PerformanceMonitor::tick` (lines 17-42): increment `num_frames_`
once per call, then run the per-device loop over the passed map
(modelled as an association list in iteration order). -/
def tick (m : PerformanceMonitor) (frame_data_by_device : List (String × FrameData)) :
    PerformanceMonitor :=
  frame_data_by_device.foldl (fun acc p => tick_device acc p.1 p.2)
    { m with num_frames := m.num_frames + 1 }

/-- Feeding one single-device observation per `tick` call, starting from
the fresh monitor. -/
def pm_seq_run (device_name : String) (fds : List FrameData) : PerformanceMonitor :=
  fds.foldl (fun m fd => tick m [(device_name, fd)]) pmInit

theorem ula_fields (m : PerformanceMonitor) (d : String) (l : Int) :
    (update_latency_average m d l).last_seq_num_by_device = m.last_seq_num_by_device ∧
      (update_latency_average m d l).events = m.events ∧
      (update_latency_average m d l).seq_gap_count_by_device = m.seq_gap_count_by_device ∧
      (update_latency_average m d l).num_frames = m.num_frames := by
  unfold update_latency_average
  cases m.mean_latency_by_device d
  · exact ⟨rfl, rfl, rfl, rfl⟩
  · exact ⟨rfl, rfl, rfl, rfl⟩

theorem detect_gap_of_gt (m : PerformanceMonitor) (d : String) (fd : FrameData)
    (p : Nat) (hlast : m.last_seq_num_by_device d = some p)
    (hgt : 1 < (fd.sequence_number + U64 - p) % U64) :
    detect_gap m d fd =
      { m with
        events := m.events ++
          [⟨fd.timestamp_us, d, fd.sequence_number,
            (fd.sequence_number + U64 - p) % U64 - 1⟩],
        seq_gap_count_by_device :=
          setKey m.seq_gap_count_by_device d (m.seq_gap_count_by_device d + 1) } := by
  unfold detect_gap
  rw [hlast]
  dsimp only
  rw [if_pos hgt]

theorem detect_gap_of_le (m : PerformanceMonitor) (d : String) (fd : FrameData)
    (p : Nat) (hlast : m.last_seq_num_by_device d = some p)
    (hle : ¬1 < (fd.sequence_number + U64 - p) % U64) :
    detect_gap m d fd = m := by
  unfold detect_gap
  rw [hlast]
  dsimp only
  rw [if_neg hle]

/-- A `tick` carrying one device whose wrapped sequence difference
exceeds 1 appends exactly one gap event and bumps that device's gap
count by one. -/
theorem tick_single_gap (m : PerformanceMonitor) (d : String) (fd : FrameData)
    (p : Nat) (hlast : m.last_seq_num_by_device d = some p)
    (hgt : 1 < (fd.sequence_number + U64 - p) % U64) :
    (tick m [(d, fd)]).events
        = m.events ++ [⟨fd.timestamp_us, d, fd.sequence_number,
            (fd.sequence_number + U64 - p) % U64 - 1⟩] ∧
      (tick m [(d, fd)]).seq_gap_count_by_device d = m.seq_gap_count_by_device d + 1 := by
  obtain ⟨hu1, hu2, hu3, _⟩ :=
    ula_fields { m with num_frames := m.num_frames + 1 } d fd.latency_us
  have hlast1 :
      (update_latency_average { m with num_frames := m.num_frames + 1 } d
        fd.latency_us).last_seq_num_by_device d = some p := by
    rw [hu1]
    exact hlast
  have hdg := detect_gap_of_gt _ d fd p hlast1 hgt
  simp only [tick, List.foldl, tick_device]
  rw [hdg]
  constructor
  · simp only [set_last_seq]
    rw [hu2]
  · simp only [set_last_seq, setKey]
    rw [hu3]
    simp

/-- A `tick` carrying one device whose wrapped sequence difference is at
most 1 leaves the event log and that device's gap count unchanged. -/
theorem tick_single_nogap (m : PerformanceMonitor) (d : String) (fd : FrameData)
    (p : Nat) (hlast : m.last_seq_num_by_device d = some p)
    (hle : ¬1 < (fd.sequence_number + U64 - p) % U64) :
    (tick m [(d, fd)]).events = m.events ∧
      (tick m [(d, fd)]).seq_gap_count_by_device d = m.seq_gap_count_by_device d := by
  obtain ⟨hu1, hu2, hu3, _⟩ :=
    ula_fields { m with num_frames := m.num_frames + 1 } d fd.latency_us
  have hlast1 :
      (update_latency_average { m with num_frames := m.num_frames + 1 } d
        fd.latency_us).last_seq_num_by_device d = some p := by
    rw [hu1]
    exact hlast
  have hdg := detect_gap_of_le _ d fd p hlast1 hle
  simp only [tick, List.foldl, tick_device]
  rw [hdg]
  constructor
  · simp only [set_last_seq]
    rw [hu2]
  · simp only [set_last_seq]
    rw [hu3]

/-- Claim C7: whenever a previous sequence number p is on record for a
device and the incoming sequence number c exceeds it by more than 1,
the tick appends exactly one gap event (device, timestamp, sequence
number, gap size c - p - 1) to the event log and increments the
device's gap count by one; in particular, feeding sequence numbers
1, 2, 4, 5 for one device yields exactly one gap event, of size 1,
emitted when sequence 4 arrives. -/
theorem C7_gap_detection :
    (∀ (m : PerformanceMonitor) (d : String) (fd : FrameData) (p : Nat),
        m.last_seq_num_by_device d = some p →
        p < fd.sequence_number →
        1 < fd.sequence_number - p →
        fd.sequence_number < U64 →
        (tick m [(d, fd)]).events
            = m.events ++ [⟨fd.timestamp_us, d, fd.sequence_number,
                fd.sequence_number - p - 1⟩] ∧
          (tick m [(d, fd)]).seq_gap_count_by_device d
            = m.seq_gap_count_by_device d + 1) ∧
      (pm_seq_run "c" [⟨100, 1, 10⟩, ⟨200, 2, 10⟩]).events = [] ∧
      (pm_seq_run "c" [⟨100, 1, 10⟩, ⟨200, 2, 10⟩, ⟨400, 4, 10⟩]).events
        = [⟨400, "c", 4, 1⟩] ∧
      (pm_seq_run "c" [⟨100, 1, 10⟩, ⟨200, 2, 10⟩, ⟨400, 4, 10⟩, ⟨500, 5, 10⟩]).events
        = [⟨400, "c", 4, 1⟩] ∧
      (pm_seq_run "c"
        [⟨100, 1, 10⟩, ⟨200, 2, 10⟩, ⟨400, 4, 10⟩, ⟨500, 5, 10⟩]).seq_gap_count_by_device "c"
        = 1 := by
  refine ⟨?_, by decide, by decide, by decide, by decide⟩
  intro m d fd p hlast hpc hgap hlt
  have hmod : (fd.sequence_number + U64 - p) % U64 = fd.sequence_number - p := by
    have h1 : fd.sequence_number + U64 - p = (fd.sequence_number - p) + U64 := by omega
    rw [h1, Nat.add_mod_right]
    exact Nat.mod_eq_of_lt (by omega)
  have h2 := tick_single_gap m d fd p hlast (by rw [hmod]; exact hgap)
  rw [hmod] at h2
  exact h2

/-- Claim C7 witness: after feeding sequence numbers 1 then 2, the
recorded last sequence number is 2, and the tick carrying sequence 4
appends exactly the gap event of size 4 - 2 - 1 = 1. -/
theorem C7_gap_detection_witness :
    (pm_seq_run "c" [⟨100, 1, 10⟩, ⟨200, 2, 10⟩]).last_seq_num_by_device "c" = some 2 ∧
      (tick (pm_seq_run "c" [⟨100, 1, 10⟩, ⟨200, 2, 10⟩]) [("c", ⟨400, 4, 10⟩)]).events
        = (pm_seq_run "c" [⟨100, 1, 10⟩, ⟨200, 2, 10⟩]).events
            ++ [⟨400, "c", 4, 4 - 2 - 1⟩] :=
  ⟨by decide,
    (C7_gap_detection.1 (pm_seq_run "c" [⟨100, 1, 10⟩, ⟨200, 2, 10⟩]) "c" ⟨400, 4, 10⟩ 2
      (by decide) (by decide) (by decide) (by decide)).1⟩

/-- Claim C8: the per-device latency mean follows the streaming-mean
recurrence with no history: the first sample becomes the mean with
count 1, and each further sample updates the stored mean to
`mean + (sample - mean) / count` with the pre-incremented count — and
feeding samples 10, 20, 30 yields stored means 10, 15, 20 with counts
1, 2, 3. -/
theorem C8_streaming_mean :
    (∀ (m : PerformanceMonitor) (d : String) (l : Int),
        m.mean_latency_by_device d = none →
        (update_latency_average m d l).mean_latency_by_device d = some ((l : ℚ)) ∧
          (update_latency_average m d l).latency_sample_count_by_device d = 1) ∧
      (∀ (m : PerformanceMonitor) (d : String) (l : Int) (q : ℚ) (n : Nat),
        m.mean_latency_by_device d = some q →
        m.latency_sample_count_by_device d = n →
        (update_latency_average m d l).mean_latency_by_device d
            = some (q + ((l : ℚ) - q) / ((n + 1 : Nat) : ℚ)) ∧
          (update_latency_average m d l).latency_sample_count_by_device d = n + 1) ∧
      (update_latency_average pmInit "c" 10).mean_latency_by_device "c" = some 10 ∧
      (update_latency_average pmInit "c" 10).latency_sample_count_by_device "c" = 1 ∧
      (update_latency_average (update_latency_average pmInit "c" 10) "c"
        20).mean_latency_by_device "c" = some 15 ∧
      (update_latency_average (update_latency_average pmInit "c" 10) "c"
        20).latency_sample_count_by_device "c" = 2 ∧
      (update_latency_average (update_latency_average (update_latency_average pmInit "c" 10)
        "c" 20) "c" 30).mean_latency_by_device "c" = some 20 ∧
      (update_latency_average (update_latency_average (update_latency_average pmInit "c" 10)
        "c" 20) "c" 30).latency_sample_count_by_device "c" = 3 := by
  have hfirst : ∀ (m : PerformanceMonitor) (d : String) (l : Int),
      m.mean_latency_by_device d = none →
      (update_latency_average m d l).mean_latency_by_device d = some ((l : ℚ)) ∧
        (update_latency_average m d l).latency_sample_count_by_device d = 1 := by
    intro m d l hm
    unfold update_latency_average
    rw [hm]
    dsimp only
    simp [setKey]
  have hstep : ∀ (m : PerformanceMonitor) (d : String) (l : Int) (q : ℚ) (n : Nat),
      m.mean_latency_by_device d = some q →
      m.latency_sample_count_by_device d = n →
      (update_latency_average m d l).mean_latency_by_device d
          = some (q + ((l : ℚ) - q) / ((n + 1 : Nat) : ℚ)) ∧
        (update_latency_average m d l).latency_sample_count_by_device d = n + 1 := by
    intro m d l q n hm hn
    unfold update_latency_average
    rw [hm]
    dsimp only
    simp [setKey, hn]
  have h1 := hfirst pmInit "c" 10 rfl
  have hval1 : ((10 : Int) : ℚ) = 10 := by norm_num
  have h1m : (update_latency_average pmInit "c" 10).mean_latency_by_device "c"
      = some 10 := by
    rw [h1.1, hval1]
  have h2 := hstep (update_latency_average pmInit "c" 10) "c" 20 10 1 h1m h1.2
  have hval2 : (10 : ℚ) + (((20 : Int) : ℚ) - 10) / ((1 + 1 : Nat) : ℚ) = 15 := by
    norm_num
  have h2m : (update_latency_average (update_latency_average pmInit "c" 10) "c"
      20).mean_latency_by_device "c" = some 15 := by
    rw [h2.1, hval2]
  have h2c : (update_latency_average (update_latency_average pmInit "c" 10) "c"
      20).latency_sample_count_by_device "c" = 2 := by
    rw [h2.2]
  have h3 := hstep (update_latency_average (update_latency_average pmInit "c" 10) "c" 20)
    "c" 30 15 2 h2m h2c
  have hval3 : (15 : ℚ) + (((30 : Int) : ℚ) - 15) / ((2 + 1 : Nat) : ℚ) = 20 := by
    norm_num
  have h3m : (update_latency_average (update_latency_average (update_latency_average pmInit
      "c" 10) "c" 20) "c" 30).mean_latency_by_device "c" = some 20 := by
    rw [h3.1, hval3]
  have h3c : (update_latency_average (update_latency_average (update_latency_average pmInit
      "c" 10) "c" 20) "c" 30).latency_sample_count_by_device "c" = 3 := by
    rw [h3.2]
  exact ⟨hfirst, hstep, h1m, h1.2, h2m, h2c, h3m, h3c⟩

/-- Claim C8 witness: the streaming recurrence applied to the state
after the first sample 10, with incoming sample 20 and count 1. -/
theorem C8_streaming_mean_witness :
    (update_latency_average pmInit "c" 10).mean_latency_by_device "c" = some 10 ∧
      (update_latency_average pmInit "c" 10).latency_sample_count_by_device "c" = 1 ∧
      (update_latency_average (update_latency_average pmInit "c" 10) "c"
        20).mean_latency_by_device "c"
        = some (10 + (((20 : Int) : ℚ) - 10) / ((1 + 1 : Nat) : ℚ)) :=
  ⟨C8_streaming_mean.2.2.1, C8_streaming_mean.2.2.2.1,
    (C8_streaming_mean.2.1 (update_latency_average pmInit "c" 10) "c" 20 10 1
      C8_streaming_mean.2.2.1 C8_streaming_mean.2.2.2.1).1⟩

theorem detect_gap_num_frames (m : PerformanceMonitor) (d : String) (fd : FrameData) :
    (detect_gap m d fd).num_frames = m.num_frames := by
  unfold detect_gap
  cases m.last_seq_num_by_device d
  · rfl
  · dsimp only
    split
    · rfl
    · rfl

theorem tick_device_num_frames (m : PerformanceMonitor) (d : String) (fd : FrameData) :
    (tick_device m d fd).num_frames = m.num_frames := by
  unfold tick_device set_last_seq
  dsimp only
  rw [detect_gap_num_frames]
  exact (ula_fields m d fd.latency_us).2.2.2

theorem foldl_tick_device_num_frames (l : List (String × FrameData)) :
    ∀ m : PerformanceMonitor,
      (l.foldl (fun acc p => tick_device acc p.1 p.2) m).num_frames = m.num_frames := by
  induction l with
  | nil =>
    intro m
    rfl
  | cons a l ih =>
    intro m
    rw [List.foldl_cons, ih, tick_device_num_frames]

theorem tick_num_frames (m : PerformanceMonitor) (l : List (String × FrameData)) :
    (tick m l).num_frames = m.num_frames + 1 := by
  unfold tick
  rw [foldl_tick_device_num_frames]

/-- Claim C9, amended: `num_frames_` — the total frame count that
`report()` prints and serializes — is incremented once per `tick` call,
i.e. once per matched pair, not once per observed frame: a run of m
matched pairs (each tick carrying both devices' frames) reports a total
of m, not 2·m. -/
theorem C9_total_frames_equals_tick_count
    (inputs : List (List (String × FrameData))) :
    (inputs.foldl tick pmInit).num_frames = inputs.length := by
  suffices h : ∀ m : PerformanceMonitor,
      (inputs.foldl tick m).num_frames = m.num_frames + inputs.length by
    simpa [pmInit] using h pmInit
  induction inputs with
  | nil =>
    intro m
    simp
  | cons a l ih =>
    intro m
    rw [List.foldl_cons, ih, tick_num_frames]
    simp only [List.length_cons]
    omega

/-- Claim C9 counterexample: one matched pair (m = 1) whose tick carries
one frame per device — two frames observed — yields a reported total of
1, not 2·1 = 2 as the claim states. -/
theorem C9_total_frames_counterexample :
    (tick pmInit [("/dev/cam_front", ⟨0, 1, 5⟩), ("/dev/cam_right", ⟨3, 1, 7⟩)]).num_frames
        = 1 ∧
      ¬(tick pmInit
          [("/dev/cam_front", ⟨0, 1, 5⟩), ("/dev/cam_right", ⟨3, 1, 7⟩)]).num_frames
        = 2 * 1 := by
  refine ⟨by decide, by decide⟩

/-- Claim C10, amended: with a previous sequence number p on record and
`uint64_t` wrap-around arithmetic, observing p again records no gap
(the wrapped difference is 0), and observing c < p records one gap
event of wrapped size 2^64 - (p - c) - 1 (that is, (c - p - 1) mod
2^64) and increments the gap count — except in the single corner
p - c = 2^64 - 1 (p = 2^64 - 1, c = 0), where the wrapped difference is
exactly 1 and nothing is recorded. -/
theorem C10_wrapped_gap (m : PerformanceMonitor) (d : String) (fd : FrameData) (p : Nat)
    (hlast : m.last_seq_num_by_device d = some p) (hp : p < U64)
    (hc : fd.sequence_number < U64) :
    (fd.sequence_number = p →
      (tick m [(d, fd)]).events = m.events ∧
        (tick m [(d, fd)]).seq_gap_count_by_device d = m.seq_gap_count_by_device d) ∧
      (fd.sequence_number < p → p - fd.sequence_number ≠ U64 - 1 →
        (tick m [(d, fd)]).events
            = m.events ++ [⟨fd.timestamp_us, d, fd.sequence_number,
                U64 - (p - fd.sequence_number) - 1⟩] ∧
          (tick m [(d, fd)]).seq_gap_count_by_device d
            = m.seq_gap_count_by_device d + 1) := by
  constructor
  · intro heq
    have hmod : (fd.sequence_number + U64 - p) % U64 = 0 := by
      have h1 : fd.sequence_number + U64 - p = U64 := by omega
      rw [h1, Nat.mod_self]
    exact tick_single_nogap m d fd p hlast (by rw [hmod]; omega)
  · intro hlt hne
    have hmod : (fd.sequence_number + U64 - p) % U64 = U64 - (p - fd.sequence_number) := by
      have h1 : fd.sequence_number + U64 - p = U64 - (p - fd.sequence_number) := by omega
      rw [h1]
      exact Nat.mod_eq_of_lt (by omega)
    have hgt : 1 < (fd.sequence_number + U64 - p) % U64 := by
      rw [hmod]
      omega
    have h2 := tick_single_gap m d fd p hlast hgt
    rw [hmod] at h2
    exact h2

/-- Claim C10 witness: with previous sequence number 5 on record,
observing sequence number 2 appends one wrapped gap event of size
2^64 - 3 - 1. -/
theorem C10_wrapped_gap_witness :
    (tick pmInit [("c", ⟨1, 5, 0⟩)]).last_seq_num_by_device "c" = some 5 ∧
      (tick (tick pmInit [("c", ⟨1, 5, 0⟩)]) [("c", ⟨2, 2, 0⟩)]).events
        = (tick pmInit [("c", ⟨1, 5, 0⟩)]).events ++ [⟨2, "c", 2, U64 - (5 - 2) - 1⟩] :=
  ⟨by decide,
    ((C10_wrapped_gap (tick pmInit [("c", ⟨1, 5, 0⟩)]) "c" ⟨2, 2, 0⟩ 5
      (by decide) (by decide) (by decide)).2 (by decide) (by decide)).1⟩

/-- Claim C10 counterexample: with previous sequence number
p = 2^64 - 1 on record, observing c = 0 < p records no gap event and no
gap count increment, because the wrapped `uint64_t` difference is
exactly 1 — refuting the claim that every c < p records a gap event. -/
theorem C10_wrapped_gap_counterexample :
    (0 : Nat) < U64 - 1 ∧
      (pm_seq_run "c" [⟨1, U64 - 1, 0⟩, ⟨2, 0, 0⟩]).events = [] ∧
      (pm_seq_run "c" [⟨1, U64 - 1, 0⟩, ⟨2, 0, 0⟩]).seq_gap_count_by_device "c" = 0 := by
  refine ⟨by decide, by decide, by decide⟩

end Robodaq
